import Mathlib

/-!
Shallow embedding of the hours-parsing and open-status engine of
`src/shared.js` (Portland Places Map), together with theorems settling
the claims about it.  Times are minutes since midnight, modelled as `Nat`
where the JS code only ever holds non-negative values, and as `Int` where
a subtraction may conceptually go negative (`minutesUntilClose`).
Strings are processed on `List Char`, mirroring the JS regex and string
operations character by character.
-/

namespace Shared

/-- The numeric value of a decimal digit character, as `parseInt` sees it. -/
def charVal (c : Char) : Nat := c.toNat - '0'.toNat

/-- Value of a digit string, as JS `parseInt(str, 10)` on an all-digit string. -/
def natOfDigits (ds : List Char) : Nat :=
  ds.foldl (fun a c => a * 10 + charVal c) 0

/-- JS `String.prototype.trim` on a character list (whitespace from both ends). -/
def trimChars (cs : List Char) : List Char :=
  ((cs.dropWhile Char.isWhitespace).reverse.dropWhile Char.isWhitespace).reverse

/-- Does the list begin with the given pattern (JS `startsWith`)? -/
def startsWithChars : List Char → List Char → Bool
  | [], _ => true
  | _ :: _, [] => false
  | p :: ps, c :: cs => p = c && startsWithChars ps cs

/-- Does the list contain the pattern as a contiguous substring (JS `includes`)? -/
def containsChars (pat : List Char) : List Char → Bool
  | [] => startsWithChars pat []
  | c :: cs => startsWithChars pat (c :: cs) || containsChars pat cs

/-- Remove the first occurrence of `pat` (JS `String.prototype.replace(pat, "")`
with a plain-string pattern, which replaces only the first occurrence). -/
def replaceFirstChars (pat : List Char) : List Char → List Char
  | [] => []
  | c :: cs =>
    if startsWithChars pat (c :: cs) then (c :: cs).drop pat.length
    else c :: replaceFirstChars pat cs

/-- Split a character list at every character satisfying `p`, keeping empty
pieces, as JS `String.prototype.split` with a single-character class. -/
def splitBy (p : Char → Bool) : List Char → List Char → List (List Char)
  | [], acc => [acc.reverse]
  | c :: cs, acc =>
    if p c then acc.reverse :: splitBy p cs [] else splitBy p cs (c :: acc)

/-- The three dash characters of the range separator class in `parseTimeRange`:
en-dash, em-dash, hyphen. -/
def isDash (c : Char) : Bool := c = '–' || c = '—' || c = '-'

/-- Match of the `parseTime` regex `^(\d{1,2}):(\d{2})\s*(AM|PM)?$/i` on a
trimmed character list.  Returns `(hours, minutes, period)` where `period` is
`some true` for PM, `some false` for AM, `none` when absent. -/
def matchClock (cs : List Char) : Option (Nat × Nat × Option Bool) :=
  let ds := cs.takeWhile Char.isDigit
  let rest := cs.dropWhile Char.isDigit
  if ds.length = 0 ∨ ds.length > 2 then none
  else
    match rest with
    | ':' :: d1 :: d2 :: rest2 =>
      if d1.isDigit && d2.isDigit then
        let rest3 := rest2.dropWhile Char.isWhitespace
        match rest3 with
        | [] => some (natOfDigits ds, charVal d1 * 10 + charVal d2, none)
        | [c1, c2] =>
          if (c1 = 'A' || c1 = 'a') && (c2 = 'M' || c2 = 'm') then
            some (natOfDigits ds, charVal d1 * 10 + charVal d2, some false)
          else if (c1 = 'P' || c1 = 'p') && (c2 = 'M' || c2 = 'm') then
            some (natOfDigits ds, charVal d1 * 10 + charVal d2, some true)
          else none
        | _ => none
      else none
    | _ => none

/-- Function `inferHour` from `src/shared.js`: decide whether an hour without AM/PM
should be shifted 12 hours forward. -/
def inferHour (hours minutes : Nat) (isEndTime : Bool) (startMinutes : Option Nat) : Nat :=
  match isEndTime, startMinutes with
  | false, _ =>
    if 1 ≤ hours ∧ hours ≤ 6 then hours + 12 else hours
  | true, none =>
    if 1 ≤ hours ∧ hours ≤ 6 then hours + 12 else hours
  | true, some sm =>
    let startHour := sm / 60
    let currentMinutes := hours * 60 + minutes
    if hours < 12 ∧ startHour ≥ 12 then hours + 12
    else if currentMinutes < sm ∧ hours < 12 then hours + 12
    else hours

/-- The 12→24-hour conversion block of `parseTime`: explicit PM adds 12 except
at 12, explicit AM maps 12 to 0, a missing meridiem goes to `inferHour`. -/
def convertHours (h m : Nat) (per : Option Bool) (isEndTime : Bool)
    (startMinutes : Option Nat) : Nat :=
  match per with
  | some true => if h ≠ 12 then h + 12 else h
  | some false => if h = 12 then 0 else h
  | none => inferHour h m isEndTime startMinutes

/-- Function `parseTime` from `src/shared.js`: parse a clock token into minutes from
midnight, or `none` on a falsy string or a regex mismatch. -/
def parseTime (timeStr : String) (isEndTime : Bool) (startMinutes : Option Nat) :
    Option Nat :=
  if timeStr = "" then none
  else
    match matchClock (trimChars timeStr.toList) with
    | none => none
    | some (h, m, per) => some (convertHours h m per isEndTime startMinutes * 60 + m)

/-- A parsed time range: `{ start, end, is24h }` in `src/shared.js`.  Periods
built by `parseTimeRange` leave `is24h` undefined (falsy), modelled as
`false`; the field name `end` is a Lean keyword, rendered `endM`. -/
structure TimeRange where
  start : Nat
  endM : Nat
  is24h : Bool
deriving DecidableEq

/-- One trimmed comma-separated period of a raw range string, as built inside
`parseTimeRange` before the per-period loop. -/
def periodsOf (rangeStr : String) : List String :=
  (splitBy (fun c => c = ',') rangeStr.toList []).map fun cs => String.mk (trimChars cs)

/-- The body of the per-period loop of `parseTimeRange`: split on the dash
class, require exactly two parts, parse start then end (the start as context),
and discard the period when either side fails. -/
def parsePeriod (period : String) : Option TimeRange :=
  match splitBy isDash period.toList [] with
  | [p0, p1] =>
    match parseTime (String.mk p0) false none with
    | none => none
    | some s =>
      match parseTime (String.mk p1) true (some s) with
      | none => none
      | some e => some ⟨s, e, false⟩
  | _ => none

/-- The characters of the literal `"Open 24 hours"`. -/
def open24Chars : List Char := "Open 24 hours".toList

/-- Function `parseTimeRange` from `src/shared.js`: raw day text to a list of ranges,
or `none` for falsy input, the exact text `"Closed"`, or when no period
parses. -/
def parseTimeRange (rangeStr : String) : Option (List TimeRange) :=
  if rangeStr = "" ∨ rangeStr = "Closed" then none
  else if containsChars open24Chars rangeStr.toList then some [⟨0, 1440, true⟩]
  else
    let results := (periodsOf rangeStr).filterMap parsePeriod
    if results = [] then none else some results

/-- Constant `DAY_NAMES` from `src/shared.js`. -/
def DAY_NAMES : List String :=
  ["Sunday", "Monday", "Tuesday", "Wednesday", "Thursday", "Friday", "Saturday"]

/-- Constant `CLOSING_SOON_MINUTES` from `src/shared.js`. -/
def CLOSING_SOON_MINUTES : Nat := 45

/-- Lookup `DAY_NAMES[d % 7]`: the weekday name used both as lookup key and label.
JS `Date.getDay()` is always in `0..6`; the model reduces an arbitrary day
count modulo 7 as the forward search does implicitly through the calendar. -/
def dayNameOf (d : Nat) : String := DAY_NAMES.getD (d % 7) ""

/-- The caller-visible part of a JS `Date` used by the engine: day of week
(`getDay`), `getHours`, `getMinutes`. -/
structure JsDate where
  day : Nat
  hour : Nat
  minute : Nat

/-- Result record of `getTodayHours`. -/
structure TodayHours where
  dayName : String
  timeStr : String
  ranges : Option (List TimeRange)
deriving DecidableEq

/-- Function `getTodayHours` from `src/shared.js`: find the entry for the date's
weekday, strip the `"<DayName>: "` prefix (first occurrence, as JS
`replace` with a string pattern), and parse its ranges.  A `none` hours
argument models a non-array (`null`) input. -/
def getTodayHours (hours : Option (List String)) (date : JsDate) : Option TodayHours :=
  match hours with
  | none => none
  | some hs =>
    if hs.length = 0 then none
    else
      let dayName := dayNameOf date.day
      match hs.find? (fun h => startsWithChars (dayName ++ ":").toList h.toList) with
      | none => none
      | some entry =>
        let timeStr := String.mk (replaceFirstChars (dayName ++ ": ").toList entry.toList)
        some ⟨dayName, timeStr, parseTimeRange timeStr⟩

/-- Zero-padding of `formatMinutesAsTime` for the minute part of the minute part, as JS
`toString().padStart(2, "0")`. -/
def pad2 (n : Nat) : String := if n < 10 then "0" ++ toString n else toString n

/-- Function `formatMinutesAsTime` from `src/shared.js`: minutes from midnight to a
12-hour display string. -/
def formatMinutesAsTime (minutes : Nat) : String :=
  let hours := minutes / 60 % 24
  let mins := minutes % 60
  let period := if hours ≥ 12 then "PM" else "AM"
  let displayHours := if hours = 0 then 12 else if hours > 12 then hours - 12 else hours
  toString displayHours ++ ":" ++ pad2 mins ++ " " ++ period

/-- The result record of `getOpenStatus`.  Fields the JS code omits on some
paths are `Option`s with `none` for "absent"; `opensAt` can be present but
`null`, hence `Option (Option String)`. -/
structure OpenStatus where
  isOpen : Bool
  isClosingSoon : Bool
  status : String
  minutesUntilClose : Option Int
  closesAt : Option String
  opensAt : Option (Option String)
  todayHours : Option String
deriving DecidableEq

/-- The `minutesUntilClose` computation of `checkTimeRange`, over `Int`
because the non-wrap subtraction can be negative before the range check. -/
def minutesUntilCloseOf (r : TimeRange) (currentMinutes : Nat) : Int :=
  if r.endM < r.start then
    if currentMinutes ≥ r.start then (1440 - (currentMinutes : Int)) + (r.endM : Int)
    else (r.endM : Int) - (currentMinutes : Int)
  else (r.endM : Int) - (currentMinutes : Int)

/-- The record `checkTimeRange` builds when the current minute is in range:
`minutesUntilClose`, `closesAt` from `end mod 1440`, and a status of
`closing-soon` exactly when `0 < minutesUntilClose ≤ CLOSING_SOON_MINUTES`. -/
def rangeStatus (r : TimeRange) (currentMinutes : Nat) (todayHours : String) :
    OpenStatus :=
  let m := minutesUntilCloseOf r currentMinutes
  let isClosingSoon : Bool := decide (m ≤ (CLOSING_SOON_MINUTES : Int) ∧ 0 < m)
  ⟨true, isClosingSoon,
   if isClosingSoon then "closing-soon" else "open",
   some m,
   some (formatMinutesAsTime (r.endM % 1440)),
   none,
   some todayHours⟩

/-- Function `checkTimeRange` from `src/shared.js`: `some` open-status when the
current minute falls in the range (with overnight wraparound when
`end < start`), `none` otherwise. -/
def checkTimeRange (r : TimeRange) (currentMinutes : Nat) (todayHours : String) :
    Option OpenStatus :=
  let wrapsToNextDay := r.endM < r.start
  let isInRange :=
    if wrapsToNextDay then currentMinutes ≥ r.start || currentMinutes < r.endM
    else currentMinutes ≥ r.start && currentMinutes < r.endM
  if isInRange then some (rangeStatus r currentMinutes todayHours)
  else none

/-- The loop over the list `[1, ..., 7]` in `findNextOpenTime`: the first
offset day with a non-empty parsed range list wins. -/
def findNextOpenLoop (hours : Option (List String)) (date : JsDate) :
    List Nat → Option String
  | [] => none
  | i :: is =>
    match getTodayHours hours ⟨date.day + i, date.hour, date.minute⟩ with
    | some dd =>
      match dd.ranges with
      | some (r :: _) =>
        some ((if i = 1 then "tomorrow" else dayNameOf (date.day + i)) ++
              " at " ++ formatMinutesAsTime r.start)
      | _ => findNextOpenLoop hours date is
    | none => findNextOpenLoop hours date is

/-- Function `findNextOpenTime` from `src/shared.js`: a later range today, else the
first of the next seven days with any ranges, else `none`. -/
def findNextOpenTime (hours : Option (List String)) (date : JsDate) : Option String :=
  match hours with
  | none => none
  | some hs =>
    if hs.length = 0 then none
    else
      let currentMinutes := date.hour * 60 + date.minute
      let todayPart :=
        match getTodayHours hours date with
        | some td =>
          match td.ranges with
          | some rs =>
            match rs.find? (fun r => currentMinutes < r.start) with
            | some r => some ("today at " ++ formatMinutesAsTime r.start)
            | none => none
          | none => none
        | none => none
      match todayPart with
      | some s => some s
      | none => findNextOpenLoop hours date [1, 2, 3, 4, 5, 6, 7]

/-- The `unknown` outcome of `getOpenStatus`: no further fields. -/
def unknownStatus : OpenStatus := ⟨false, false, "unknown", none, none, none, none⟩

/-- The loop over today's ranges in `getOpenStatus`: an `is24h` range returns
`open` immediately, otherwise the first range containing the current minute
wins. -/
def firstRangeStatus (ranges : List TimeRange) (currentMinutes : Nat)
    (todayStr : String) : Option OpenStatus :=
  match ranges with
  | [] => none
  | r :: rs =>
    if r.is24h then
      some ⟨true, false, "open", none, none, none, some todayStr⟩
    else
      match checkTimeRange r currentMinutes todayStr with
      | some res => some res
      | none => firstRangeStatus rs currentMinutes todayStr

/-- Function `getOpenStatus` from `src/shared.js`: the four-outcome status evaluator. -/
def getOpenStatus (hours : Option (List String)) (date : JsDate) : OpenStatus :=
  match getTodayHours hours date with
  | none => unknownStatus
  | some td =>
    match td.ranges with
    | none => unknownStatus
    | some rs =>
      let currentMinutes := date.hour * 60 + date.minute
      match firstRangeStatus rs currentMinutes td.timeStr with
      | some res => res
      | none =>
        ⟨false, false, "closed", none, none,
         some (findNextOpenTime hours date), some td.timeStr⟩

/-- The parsed range list the forward search sees for a given day count:
`[]` both when the day has no entry and when its ranges are `null`, matching
the loop guard `dayData && dayData.ranges && dayData.ranges.length > 0`. -/
def scheduleRanges (hours : Option (List String)) (day : Nat) : List TimeRange :=
  ((getTodayHours hours ⟨day, 0, 0⟩).bind TodayHours.ranges).getD []

/-- No range of the reference day starts strictly after the current minute:
the condition under which `findNextOpenTime`'s today-scan finds nothing. -/
def noLaterOpeningToday (hours : Option (List String)) (d : JsDate) : Prop :=
  ∀ td rs, getTodayHours hours d = some td → td.ranges = some rs →
    ∀ r ∈ rs, r.start ≤ d.hour * 60 + d.minute

/-- A canonical 12-hour clock token `"H:MM AM"` / `"H:MM PM"` (hour without
leading zero, minute zero-padded), the display form of `formatMinutesAsTime`. -/
def mkToken (h m : Nat) (pm : Bool) : String :=
  toString h ++ ":" ++ pad2 m ++ " " ++ (if pm then "PM" else "AM")

end Shared

section Scratch
open Shared
example : parseTime "9:00 AM" false none = some 540 := by decide
example : parseTime "3:00 PM" false none = some 900 := by decide
example : parseTime "12:00 PM" false none = some 720 := by decide
example : parseTime "12:00 AM" false none = some 0 := by decide
example : parseTime "9:00" true (some 720) = some 1260 := by decide
example : parseTime "5:00" true none = some 1020 := by decide
example : parseTime "23:59" false none = some 1439 := by decide
example : parseTime " 10:30 pm " false none = some 1350 := by decide
example : parseTime "123:00" false none = none := by decide
example : parseTime "1:234" false none = none := by decide
example : parseTime "" true none = none := by decide

example : parseTimeRange "Closed" = none := by decide
example : parseTimeRange "" = none := by decide
example : parseTimeRange "Open 24 hours" = some [⟨0, 1440, true⟩] := by decide
example : parseTimeRange "9:00 AM – 5:00 PM" = some [⟨540, 1020, false⟩] := by decide
example : parseTimeRange "11:00 AM – 3:00 PM, 5:00 – 10:00 PM" =
    some [⟨660, 900, false⟩, ⟨1020, 1320, false⟩] := by decide
example : formatMinutesAsTime 540 = "9:00 AM" := by decide
example : formatMinutesAsTime 0 = "12:00 AM" := by decide
example : formatMinutesAsTime 720 = "12:00 PM" := by decide
example : formatMinutesAsTime 1350 = "10:30 PM" := by decide

example :
    getTodayHours (some ["Monday: 9:00 AM – 5:00 PM"]) ⟨1, 16, 30⟩ =
      some ⟨"Monday", "9:00 AM – 5:00 PM", some [⟨540, 1020, false⟩]⟩ := by decide

example :
    getOpenStatus (some ["Monday: 9:00 AM – 5:00 PM"]) ⟨1, 16, 30⟩ =
      ⟨true, true, "closing-soon", some 30, some "5:00 PM", none,
       some "9:00 AM – 5:00 PM"⟩ := by decide

example : getOpenStatus none ⟨1, 16, 30⟩ = unknownStatus := by decide
example : getOpenStatus (some []) ⟨1, 16, 30⟩ = unknownStatus := by decide

example :
    findNextOpenTime (some ["Monday: 9:00 AM – 5:00 PM"]) ⟨0, 10, 0⟩ =
      some "tomorrow at 9:00 AM" := by decide

example :
    findNextOpenTime (some ["Monday: 9:00 AM – 5:00 PM"]) ⟨1, 18, 0⟩ =
      some "Monday at 9:00 AM" := by decide

example :
    findNextOpenTime (some ["Monday: Closed"]) ⟨1, 18, 0⟩ = none := by decide

example :
    findNextOpenTime (some ["Sunday: 5:00 PM – 6:00 PM, 9:00 AM – 10:00 AM"]) ⟨0, 0, 0⟩ =
      some "today at 5:00 PM" := by decide

example : checkTimeRange ⟨1320, 60, false⟩ 30 "x" =
    some ⟨true, true, "closing-soon", some 30, some "1:00 AM", none, some "x"⟩ := by decide
example : (checkTimeRange ⟨1320, 60, false⟩ 1439 "x").isSome = true := by decide
end Scratch

namespace Shared

lemma matchClock_nil : matchClock [] = none := by decide

/-- Claim C1:  The claim "no heuristic adjustment for an end time with no known
start" is false: `inferHour`'s guard `(!isEndTime || startMinutes === null)`
sends that case into the start-time heuristic, so `"5:00"` as an end time
with no start parses to 1020 (5 PM), not the literal 300. -/
theorem C1_counterexample :
    parseTime "5:00" true none = some 1020 ∧
      parseTime "5:00" true none ≠ some (5 * 60 + 0) := by decide

/-- Claim C1 (amended):  For every time token without an AM/PM meridiem parsed as
an end time with no known start, the start-time heuristic applies: hours 1–6
are shifted to PM, all other hours yield the literal `hours*60 + minutes`. -/
theorem C1_end_time_no_start (s : String) (h m : Nat)
    (hmc : matchClock (trimChars s.toList) = some (h, m, none)) :
    parseTime s true none =
      some ((if 1 ≤ h ∧ h ≤ 6 then h + 12 else h) * 60 + m) := by
  by_cases hs : s = ""
  · subst hs
    rw [show ("" : String).toList = [] from rfl] at hmc
    rw [show trimChars [] = [] from rfl, matchClock_nil] at hmc
    cases hmc
  · unfold parseTime
    rw [if_neg hs, hmc]
    rfl

theorem C1_witness :
    parseTime "5:00" true none =
      some ((if 1 ≤ 5 ∧ 5 ≤ 6 then 5 + 12 else 5) * 60 + 0) :=
  C1_end_time_no_start "5:00" 5 0 (by decide)

/-- Claim C2:  The stated pre-adjustment bound `[0, 1380]` is false: the literal
single-day token `"23:59"` has literal value `23*60 + 59 = 1439 > 1380`. -/
theorem C2_counterexample :
    parseTime "23:59" false none = some (23 * 60 + 59) ∧
      ¬ (23 * 60 + 59 ≤ 1380) := by decide

/-- Claim C2 (amended):  Every accepted input decomposes through the clock regex as
`(hours, minutes, period)`, the returned value is the converted
`hours*60 + minutes`, and the literal pre-adjustment value of a single-day
token (hours ≤ 23, minutes ≤ 59) lies in `[0, 1439]` (not `[0, 1380]`). -/
theorem C2_parse_value (s : String) (isEnd : Bool) (st : Option Nat) (r : Nat)
    (hp : parseTime s isEnd st = some r) :
    ∃ h m per, matchClock (trimChars s.toList) = some (h, m, per) ∧
      r = convertHours h m per isEnd st * 60 + m ∧
      (h ≤ 23 → m ≤ 59 → h * 60 + m ≤ 1439) := by
  by_cases hs : s = ""
  · rw [parseTime, if_pos hs] at hp
    cases hp
  · rw [parseTime, if_neg hs] at hp
    cases hmc : matchClock (trimChars s.toList) with
    | none => rw [hmc] at hp; cases hp
    | some t =>
      obtain ⟨h, m, per⟩ := t
      rw [hmc] at hp
      refine ⟨h, m, per, rfl, ?_, ?_⟩
      · cases hp; rfl
      · intro hh hm; omega

theorem C2_witness :
    ∃ h m per, matchClock (trimChars ("9:00 AM" : String).toList) = some (h, m, per) ∧
      540 = convertHours h m per false none * 60 + m ∧
      (h ≤ 23 → m ≤ 59 → h * 60 + m ≤ 1439) :=
  C2_parse_value "9:00 AM" false none 540 (by decide)

/-- Claim C7:  Any input containing the substring `"Open 24 hours"` parses to the
single all-day range, regardless of other content. -/
theorem C7_open24 (s : String)
    (h : containsChars open24Chars s.toList = true) :
    parseTimeRange s = some [⟨0, 1440, true⟩] := by
  have h1 : ¬ (s = "" ∨ s = "Closed") := by
    rintro (rfl | rfl)
    · exact absurd h (by decide)
    · exact absurd h (by decide)
  rw [parseTimeRange, if_neg h1, if_pos h]

theorem C7_witness :
    parseTimeRange "Mon: Open 24 hours!" = some [⟨0, 1440, true⟩] :=
  C7_open24 "Mon: Open 24 hours!" (by decide)

lemma checkTimeRange_isSome (r : TimeRange) (c : Nat) (th : String) :
    (checkTimeRange r c th).isSome = true ↔
      (if r.endM < r.start then (r.start ≤ c ∨ c < r.endM)
       else (r.start ≤ c ∧ c < r.endM)) := by
  by_cases hw : r.endM < r.start
  · by_cases h1 : r.start ≤ c
    · simp [checkTimeRange, hw, h1]
    · by_cases h2 : c < r.endM <;> simp [checkTimeRange, hw, h1, h2]
  · by_cases h1 : r.start ≤ c
    · by_cases h2 : c < r.endM <;> simp [checkTimeRange, hw, h1, h2]
    · simp [checkTimeRange, hw, h1]

lemma checkTimeRange_eq_rangeStatus (r : TimeRange) (c : Nat) (th : String)
    (res : OpenStatus) (h : checkTimeRange r c th = some res) :
    res = rangeStatus r c th := by
  by_cases hw : r.endM < r.start
  · by_cases h1 : r.start ≤ c
    · simp [checkTimeRange, hw, h1] at h
      exact h.symm
    · by_cases h2 : c < r.endM
      · simp [checkTimeRange, hw, h1, h2] at h
        exact h.symm
      · simp [checkTimeRange, hw, h1, h2] at h
  · by_cases h1 : r.start ≤ c
    · by_cases h2 : c < r.endM
      · simp [checkTimeRange, hw, h1, h2] at h
        exact h.symm
      · simp [checkTimeRange, hw, h1, h2] at h
    · simp [checkTimeRange, hw, h1] at h

lemma rangeStatus_fields (r : TimeRange) (c : Nat) (th : String) :
    (rangeStatus r c th).isOpen = true ∧
    (rangeStatus r c th).minutesUntilClose = some (minutesUntilCloseOf r c) ∧
    (rangeStatus r c th).todayHours = some th ∧
    (rangeStatus r c th).closesAt = some (formatMinutesAsTime (r.endM % 1440)) ∧
    ((rangeStatus r c th).isClosingSoon = true ↔
      (minutesUntilCloseOf r c ≤ 45 ∧ 0 < minutesUntilCloseOf r c)) ∧
    (rangeStatus r c th).status =
      (if minutesUntilCloseOf r c ≤ 45 ∧ 0 < minutesUntilCloseOf r c
       then "closing-soon" else "open") := by
  refine ⟨rfl, rfl, rfl, rfl, ?_, ?_⟩
  · simp [rangeStatus, CLOSING_SOON_MINUTES, decide_eq_true_eq]
  · simp only [rangeStatus, CLOSING_SOON_MINUTES]
    by_cases hcs : minutesUntilCloseOf r c ≤ (45 : Int) ∧ 0 < minutesUntilCloseOf r c
    · simp [hcs]
    · simp [hcs]

lemma checkTimeRange_some (r : TimeRange) (c : Nat) (th : String)
    (res : OpenStatus) (h : checkTimeRange r c th = some res) :
    res.isOpen = true ∧
    res.minutesUntilClose = some (minutesUntilCloseOf r c) ∧
    res.todayHours = some th ∧
    res.closesAt = some (formatMinutesAsTime (r.endM % 1440)) ∧
    (res.isClosingSoon = true ↔
      (minutesUntilCloseOf r c ≤ 45 ∧ 0 < minutesUntilCloseOf r c)) ∧
    res.status =
      (if minutesUntilCloseOf r c ≤ 45 ∧ 0 < minutesUntilCloseOf r c
       then "closing-soon" else "open") := by
  rw [checkTimeRange_eq_rangeStatus r c th res h]
  exact rangeStatus_fields r c th

lemma minutesUntilClose_pos (r : TimeRange) (c : Nat) (hc : c < 1440)
    (hmem : if r.endM < r.start then (r.start ≤ c ∨ c < r.endM)
            else (r.start ≤ c ∧ c < r.endM)) :
    0 < minutesUntilCloseOf r c := by
  unfold minutesUntilCloseOf
  by_cases hw : r.endM < r.start
  · rw [if_pos hw] at hmem
    by_cases h1 : r.start ≤ c
    · rw [if_pos hw, if_pos h1]
      omega
    · rcases hmem with h | h
      · exact absurd h h1
      · rw [if_pos hw, if_neg h1]
        omega
  · rw [if_neg hw] at hmem
    rw [if_neg hw]
    omega

/-- Claim C3:  For an overnight wraparound range (`end < start`) the current
instant is in range exactly when `current ≥ start` or `current < end`, and
`minutesUntilClose` is `(1440 - current) + end` in the first case and
`end - current` in the second. -/
theorem C3_wraparound (r : TimeRange) (c : Nat) (th : String)
    (hw : r.endM < r.start) :
    ((checkTimeRange r c th).isSome = true ↔ (r.start ≤ c ∨ c < r.endM)) ∧
    (∀ res, checkTimeRange r c th = some res →
      res.minutesUntilClose =
        some (if r.start ≤ c then (1440 - (c : Int)) + (r.endM : Int)
              else (r.endM : Int) - (c : Int))) := by
  constructor
  · rw [checkTimeRange_isSome, if_pos hw]
  · intro res hres
    obtain ⟨-, hm, -⟩ := checkTimeRange_some r c th res hres
    rw [hm]
    unfold minutesUntilCloseOf
    rw [if_pos hw]

/-- Claim C3 witness: the spec's own overnight example `{start: 1320, end: 60}`:
12:30 AM is in range with 30 minutes to close, and 11:59 PM is in range. -/
theorem C3_witness :
    (checkTimeRange ⟨1320, 60, false⟩ 30 "x").isSome = true ∧
    (checkTimeRange ⟨1320, 60, false⟩ 1439 "x").isSome = true ∧
    ∀ res, checkTimeRange ⟨1320, 60, false⟩ 30 "x" = some res →
      res.minutesUntilClose = some 30 := by
  refine ⟨?_, ?_, ?_⟩
  · exact (C3_wraparound ⟨1320, 60, false⟩ 30 "x" (by decide)).1.mpr
      (Or.inr (by decide))
  · exact (C3_wraparound ⟨1320, 60, false⟩ 1439 "x" (by decide)).1.mpr
      (Or.inl (by decide))
  · intro res hres
    have h := (C3_wraparound ⟨1320, 60, false⟩ 30 "x" (by decide)).2 res hres
    rw [h, if_neg (by decide)]
    decide

/-- Claim C4:  A matched range reports `closing-soon` exactly when
`0 < minutesUntilClose ≤ 45` and `open` otherwise (in particular at 46);
and whenever the computed `minutesUntilClose` is zero or negative the range
does not match at all (the caller falls through). -/
theorem C4_closing_soon (r : TimeRange) (c : Nat) (th : String)
    (hc : c < 1440) :
    (∀ res, checkTimeRange r c th = some res →
      ∃ m, res.minutesUntilClose = some m ∧ 0 < m ∧
        (res.status = "closing-soon" ↔ (0 < m ∧ m ≤ 45)) ∧
        (m = 46 → res.status = "open") ∧
        (res.status = "closing-soon" ∨ res.status = "open")) ∧
    (minutesUntilCloseOf r c ≤ 0 → checkTimeRange r c th = none) := by
  constructor
  · intro res hres
    obtain ⟨-, hm, -, -, -, hstat⟩ := checkTimeRange_some r c th res hres
    have hmem := (checkTimeRange_isSome r c th).mp (by rw [hres]; rfl)
    have hpos := minutesUntilClose_pos r c hc hmem
    refine ⟨minutesUntilCloseOf r c, hm, hpos, ?_, ?_, ?_⟩
    · rw [hstat]
      by_cases hcs : minutesUntilCloseOf r c ≤ 45 ∧ 0 < minutesUntilCloseOf r c
      · rw [if_pos hcs]
        simp only [true_iff]
        exact ⟨hcs.2, hcs.1⟩
      · rw [if_neg hcs]
        constructor
        · intro habs; exact absurd habs (by decide)
        · intro habs; exact absurd ⟨habs.2, habs.1⟩ hcs
    · intro h46
      rw [hstat, if_neg]
      intro habs
      omega
    · rw [hstat]
      by_cases hcs : minutesUntilCloseOf r c ≤ 45 ∧ 0 < minutesUntilCloseOf r c
      · left; rw [if_pos hcs]
      · right; rw [if_neg hcs]
  · intro hle
    cases hh : checkTimeRange r c th with
    | none => rfl
    | some res =>
      have hmem := (checkTimeRange_isSome r c th).mp (by rw [hh]; rfl)
      have hpos := minutesUntilClose_pos r c hc hmem
      omega

/-- Claim C4 witness: at 21:40 the overnight range 10 PM–1 AM has a non-positive
computed `minutesUntilClose` and indeed does not match. -/
theorem C4_witness :
    checkTimeRange ⟨1320, 60, false⟩ 1300 "x" = none :=
  (C4_closing_soon ⟨1320, 60, false⟩ 1300 "x" (by decide)).2 (by decide)

/-- Claim C6:  `parseTimeRange` yields `null` (never an empty list) exactly for
falsy input, the exact text `"Closed"`, or non-24h text in which no period
parses; and any period that does parse survives into the result even when a
sibling period is malformed. -/
theorem C6_null_result (s : String) :
    (∀ l, parseTimeRange s = some l → l ≠ []) ∧
    (parseTimeRange s = none ↔
      (s = "" ∨ s = "Closed" ∨
        (containsChars open24Chars s.toList = false ∧
          ∀ p ∈ periodsOf s, parsePeriod p = none))) ∧
    (s ≠ "" → s ≠ "Closed" → containsChars open24Chars s.toList = false →
      ∀ p ∈ periodsOf s, ∀ r, parsePeriod p = some r →
        ∃ l, parseTimeRange s = some l ∧ r ∈ l) := by
  by_cases h0 : s = "" ∨ s = "Closed"
  · have hval : parseTimeRange s = none := by rw [parseTimeRange, if_pos h0]
    refine ⟨?_, ?_, ?_⟩
    · intro l hl; rw [hval] at hl; cases hl
    · refine iff_of_true hval ?_
      rcases h0 with h | h
      · exact Or.inl h
      · exact Or.inr (Or.inl h)
    · intro hne hnc _
      rcases h0 with h | h
      · exact absurd h hne
      · exact absurd h hnc
  · by_cases hc : containsChars open24Chars s.toList = true
    · have hval : parseTimeRange s = some [⟨0, 1440, true⟩] := by
        rw [parseTimeRange, if_neg h0, if_pos hc]
      refine ⟨?_, ?_, ?_⟩
      · intro l hl
        rw [hval] at hl
        obtain rfl := Option.some.inj hl
        intro hcon; cases hcon
      · refine iff_of_false (by rw [hval]; exact fun hcon => Option.noConfusion hcon) ?_
        rintro (h | h | ⟨hfc, -⟩)
        · exact h0 (Or.inl h)
        · exact h0 (Or.inr h)
        · rw [hfc] at hc; cases hc
      · intro _ _ hcf
        rw [hcf] at hc; cases hc
    · have hcf : containsChars open24Chars s.toList = false := by
        simpa using hc
      have hcf2 : containsChars open24Chars s.data = false := hcf
      by_cases hres : (periodsOf s).filterMap parsePeriod = []
      · have hval : parseTimeRange s = none := by
          simp [parseTimeRange, h0, hcf2, hres]
        refine ⟨?_, ?_, ?_⟩
        · intro l hl; rw [hval] at hl; cases hl
        · refine iff_of_true hval (Or.inr (Or.inr ⟨hcf, ?_⟩))
          exact List.filterMap_eq_nil_iff.mp hres
        · intro _ _ _ p hp r hr
          have := List.filterMap_eq_nil_iff.mp hres p hp
          rw [this] at hr; cases hr
      · have hval : parseTimeRange s = some ((periodsOf s).filterMap parsePeriod) := by
          simp [parseTimeRange, h0, hcf2, hres]
        refine ⟨?_, ?_, ?_⟩
        · intro l hl
          rw [hval] at hl
          obtain rfl := Option.some.inj hl
          exact hres
        · refine iff_of_false (by rw [hval]; exact fun hcon => Option.noConfusion hcon) ?_
          rintro (h | h | ⟨-, hall⟩)
          · exact h0 (Or.inl h)
          · exact h0 (Or.inr h)
          · exact hres (List.filterMap_eq_nil_iff.mpr hall)
        · intro _ _ _ p hp r hr
          exact ⟨_, hval, List.mem_filterMap.mpr ⟨p, hp, hr⟩⟩

/-- Claim C6 witness: a malformed first period is discarded while the second
period of the same string survives into the result. -/
theorem C6_witness :
    ∃ l, parseTimeRange "bogus – nope, 9:00 AM – 5:00 PM" = some l ∧
      (⟨540, 1020, false⟩ : TimeRange) ∈ l :=
  (C6_null_result "bogus – nope, 9:00 AM – 5:00 PM").2.2 (by decide) (by decide)
    (by decide) "9:00 AM – 5:00 PM" (by decide) ⟨540, 1020, false⟩ (by decide)

lemma rangeStatus_consistency (r : TimeRange) (c : Nat) (th : String) :
    ((rangeStatus r c th).isClosingSoon = true ↔
      (rangeStatus r c th).status = "closing-soon") ∧
    ((rangeStatus r c th).status = "closing-soon" ∨
      (rangeStatus r c th).status = "open") := by
  obtain ⟨-, -, -, -, hcs, hstat⟩ := rangeStatus_fields r c th
  by_cases h : minutesUntilCloseOf r c ≤ 45 ∧ 0 < minutesUntilCloseOf r c
  · rw [hstat, if_pos h]
    refine ⟨?_, Or.inl rfl⟩
    rw [hcs]
    exact iff_of_true h rfl
  · rw [hstat, if_neg h]
    refine ⟨?_, Or.inr rfl⟩
    rw [hcs]
    exact iff_of_false h (by decide)

lemma firstRangeStatus_some (rs : List TimeRange) (c : Nat) (ts : String)
    (res : OpenStatus) (h : firstRangeStatus rs c ts = some res) :
    res.isOpen = true ∧ res.todayHours = some ts ∧
    (res.isClosingSoon = true ↔ res.status = "closing-soon") ∧
    (res.status = "closing-soon" ∨ res.status = "open") := by
  induction rs with
  | nil => cases h
  | cons r rest ih =>
    unfold firstRangeStatus at h
    by_cases h24 : r.is24h = true
    · rw [if_pos h24] at h
      obtain rfl := Option.some.inj h
      refine ⟨rfl, rfl, ?_, Or.inr rfl⟩
      show false = true ↔ ("open" : String) = "closing-soon"
      decide
    · rw [if_neg h24] at h
      cases hc : checkTimeRange r c ts with
      | some res2 =>
        rw [hc] at h
        obtain rfl := Option.some.inj h
        obtain ⟨ho, -, hth, -, -, -⟩ := checkTimeRange_some r c ts res2 hc
        obtain rfl := checkTimeRange_eq_rangeStatus r c ts res2 hc
        exact ⟨ho, hth, (rangeStatus_consistency r c ts).1,
          (rangeStatus_consistency r c ts).2⟩
      | none =>
        rw [hc] at h
        exact ih h

/-- Claim C8:  Degenerate weekly-hours input (null, empty, no entry for today's
weekday, or an entry with no parseable ranges) yields exactly the bare
`{isOpen: false, status: "unknown"}` report; every other status carries
further fields (`todayHours` is set). -/
theorem C8_unknown (hours : Option (List String)) (d : JsDate) :
    ((hours = none ∨ hours = some [] ∨ getTodayHours hours d = none ∨
        (∃ td, getTodayHours hours d = some td ∧ td.ranges = none)) →
      getOpenStatus hours d = unknownStatus) ∧
    ((getOpenStatus hours d).status = "unknown" →
      getOpenStatus hours d = unknownStatus) ∧
    ((getOpenStatus hours d).status ≠ "unknown" →
      (getOpenStatus hours d).todayHours ≠ none) := by
  cases hth : getTodayHours hours d with
  | none =>
    have hval : getOpenStatus hours d = unknownStatus := by
      simp only [getOpenStatus, hth]
    refine ⟨fun _ => hval, fun _ => hval, ?_⟩
    intro hs
    rw [hval] at hs
    exact absurd rfl hs
  | some td =>
    have hnotnone : hours ≠ none := by
      intro hcon; rw [hcon] at hth; cases hth
    have hnotnil : hours ≠ some [] := by
      intro hcon
      rw [hcon] at hth
      have : getTodayHours (some []) d = none := rfl
      rw [this] at hth; cases hth
    cases htr : td.ranges with
    | none =>
      have hval : getOpenStatus hours d = unknownStatus := by
        simp only [getOpenStatus, hth, htr]
      refine ⟨fun _ => hval, fun _ => hval, ?_⟩
      intro hs
      rw [hval] at hs
      exact absurd rfl hs
    | some rs =>
      have hfalse : ¬ (hours = none ∨ hours = some [] ∨
          (some td : Option TodayHours) = none ∨
          (∃ td', (some td : Option TodayHours) = some td' ∧ td'.ranges = none)) := by
        rintro (h | h | h | ⟨td', htd', hrg⟩)
        · exact hnotnone h
        · exact hnotnil h
        · cases h
        · obtain rfl := Option.some.inj htd'
          rw [htr] at hrg; cases hrg
      cases hfr : firstRangeStatus rs (d.hour * 60 + d.minute) td.timeStr with
      | some res =>
        have hval : getOpenStatus hours d = res := by
          simp only [getOpenStatus, hth, htr, hfr]
        obtain ⟨-, hthh, -, hdisj⟩ :=
          firstRangeStatus_some rs (d.hour * 60 + d.minute) td.timeStr res hfr
        refine ⟨fun h => absurd h hfalse, ?_, ?_⟩
        · intro hs
          rw [hval] at hs
          rw [hs] at hdisj
          rcases hdisj with h | h
          · exact absurd h (by decide)
          · exact absurd h (by decide)
        · intro _
          rw [hval, hthh]
          exact fun hcon => Option.noConfusion hcon
      | none =>
        have hval : getOpenStatus hours d =
            ⟨false, false, "closed", none, none,
             some (findNextOpenTime hours d), some td.timeStr⟩ := by
          simp only [getOpenStatus, hth, htr, hfr]
        refine ⟨fun h => absurd h hfalse, ?_, ?_⟩
        · intro hs
          rw [hval] at hs
          exact absurd hs (show ("closed" : String) = "unknown" → False by decide)
        · intro _
          rw [hval]
          exact fun hcon => Option.noConfusion hcon

theorem C8_witness : getOpenStatus none ⟨0, 0, 0⟩ = unknownStatus :=
  (C8_unknown none ⟨0, 0, 0⟩).1 (Or.inl rfl)

/-- Claim C10:  The `OpenStatus` record is internally consistent: `isOpen` holds
exactly for statuses `open` and `closing-soon`, and `isClosingSoon` exactly
for `closing-soon`. -/
theorem C10_consistency (hours : Option (List String)) (d : JsDate) :
    ((getOpenStatus hours d).isOpen = true ↔
      ((getOpenStatus hours d).status = "open" ∨
        (getOpenStatus hours d).status = "closing-soon")) ∧
    ((getOpenStatus hours d).isClosingSoon = true ↔
      (getOpenStatus hours d).status = "closing-soon") := by
  cases hth : getTodayHours hours d with
  | none =>
    have hval : getOpenStatus hours d = unknownStatus := by
      simp only [getOpenStatus, hth]
    rw [hval]
    exact ⟨by decide, by decide⟩
  | some td =>
    cases htr : td.ranges with
    | none =>
      have hval : getOpenStatus hours d = unknownStatus := by
        simp only [getOpenStatus, hth, htr]
      rw [hval]
      exact ⟨by decide, by decide⟩
    | some rs =>
      cases hfr : firstRangeStatus rs (d.hour * 60 + d.minute) td.timeStr with
      | some res =>
        have hval : getOpenStatus hours d = res := by
          simp only [getOpenStatus, hth, htr, hfr]
        obtain ⟨ho, -, hcs, hdisj⟩ :=
          firstRangeStatus_some rs (d.hour * 60 + d.minute) td.timeStr res hfr
        rw [hval]
        refine ⟨iff_of_true ho ?_, hcs⟩
        rcases hdisj with h | h
        · exact Or.inr h
        · exact Or.inl h
      | none =>
        have hval : getOpenStatus hours d =
            ⟨false, false, "closed", none, none,
             some (findNextOpenTime hours d), some td.timeStr⟩ := by
          simp only [getOpenStatus, hth, htr, hfr]
        rw [hval]
        constructor
        · show false = true ↔ (("closed" : String) = "open" ∨ ("closed" : String) = "closing-soon")
          decide
        · show false = true ↔ ("closed" : String) = "closing-soon"
          decide

/-- Claim C9:  Every valid explicit-meridiem token `"H:MM AM"`/`"H:MM PM"` with
hour 1–12 and minute 00–59 round-trips: `formatMinutesAsTime` applied to
`parseTime` of the token yields the token back, including the 12:00
noon/midnight edge cases. -/
theorem C9_roundtrip (h m : Nat) (pm : Bool) (h1 : 1 ≤ h) (h2 : h ≤ 12)
    (h3 : m ≤ 59) :
    (parseTime (mkToken h m pm) false none).map formatMinutesAsTime =
      some (mkToken h m pm) := by
  have key : ∀ h : Nat, h < 13 → ∀ m : Nat, m < 60 → ∀ pm : Bool, 1 ≤ h →
      (parseTime (mkToken h m pm) false none).map formatMinutesAsTime =
        some (mkToken h m pm) := by decide
  exact key h (by omega) m (by omega) pm h1

theorem C9_witness :
    (parseTime (mkToken 12 0 false) false none).map formatMinutesAsTime =
      some (mkToken 12 0 false) :=
  C9_roundtrip 12 0 false (by decide) (by decide) (by decide)

lemma getTodayHours_day_only (hours : Option (List String)) (d d' : JsDate)
    (h : d.day = d'.day) : getTodayHours hours d = getTodayHours hours d' := by
  cases d
  cases d'
  simp only at h
  subst h
  rfl

lemma find?_first {α : Type} (p : α → Bool) (pre : List α) (r : α) (post : List α)
    (hpre : ∀ a ∈ pre, p a = false) (hr : p r = true) :
    (pre ++ r :: post).find? p = some r := by
  induction pre with
  | nil =>
    rw [List.nil_append]
    exact List.find?_cons_of_pos _ hr
  | cons b bs ih =>
    rw [List.cons_append, List.find?_cons_of_neg]
    · exact ih fun a ha => hpre a (List.mem_cons_of_mem b ha)
    · rw [hpre b (List.mem_cons_self b bs)]
      exact fun hcon => Bool.noConfusion hcon

lemma scheduleRanges_eq_cons (hours : Option (List String)) (day : Nat)
    (r : TimeRange) (rest : List TimeRange)
    (h : scheduleRanges hours day = r :: rest) :
    ∃ dd, getTodayHours hours ⟨day, 0, 0⟩ = some dd ∧
      dd.ranges = some (r :: rest) := by
  unfold scheduleRanges at h
  cases hth : getTodayHours hours ⟨day, 0, 0⟩ with
  | none => rw [hth] at h; cases h
  | some dd =>
    rw [hth] at h
    simp only [Option.some_bind] at h
    cases htr : dd.ranges with
    | none => rw [htr] at h; cases h
    | some l =>
      rw [htr] at h
      simp only [Option.getD_some] at h
      exact ⟨dd, rfl, by rw [htr, h]⟩

lemma findNextOpenLoop_skip (hours : Option (List String)) (d : JsDate)
    (i : Nat) (is : List Nat) (h : scheduleRanges hours (d.day + i) = []) :
    findNextOpenLoop hours d (i :: is) = findNextOpenLoop hours d is := by
  unfold scheduleRanges at h
  have hdo := getTodayHours_day_only hours
    ⟨d.day + i, d.hour, d.minute⟩ ⟨d.day + i, 0, 0⟩ rfl
  cases hth : getTodayHours hours ⟨d.day + i, 0, 0⟩ with
  | none => simp only [findNextOpenLoop, hdo, hth]
  | some dd =>
    rw [hth] at h
    simp only [Option.some_bind] at h
    cases htr : dd.ranges with
    | none => simp only [findNextOpenLoop, hdo, hth, htr]
    | some l =>
      rw [htr] at h
      simp only [Option.getD_some] at h
      subst h
      simp only [findNextOpenLoop, hdo, hth, htr]

lemma findNextOpenLoop_hit (hours : Option (List String)) (d : JsDate)
    (i : Nat) (is : List Nat) (r : TimeRange) (rest : List TimeRange)
    (h : scheduleRanges hours (d.day + i) = r :: rest) :
    findNextOpenLoop hours d (i :: is) =
      some ((if i = 1 then "tomorrow" else dayNameOf (d.day + i)) ++
            " at " ++ formatMinutesAsTime r.start) := by
  obtain ⟨dd, hth, htr⟩ := scheduleRanges_eq_cons hours (d.day + i) r rest h
  have hdo := getTodayHours_day_only hours
    ⟨d.day + i, d.hour, d.minute⟩ ⟨d.day + i, 0, 0⟩ rfl
  simp only [findNextOpenLoop, hdo, hth, htr]

lemma findNextOpenLoop_none (hours : Option (List String)) (d : JsDate)
    (L : List Nat) (h : ∀ j ∈ L, scheduleRanges hours (d.day + j) = []) :
    findNextOpenLoop hours d L = none := by
  induction L with
  | nil => rfl
  | cons j js ih =>
    rw [findNextOpenLoop_skip hours d j js (h j (List.mem_cons_self j js))]
    exact ih fun a ha => h a (List.mem_cons_of_mem j ha)

/-- Claim C5:  The claim "using the earliest such start" is false: the today-scan
returns the first range in textual order whose start is after the current
minute.  With ranges listed as 5 PM–6 PM then 9 AM–10 AM and a reference
minute of 0, the code answers with the 5 PM start (1020), not the earlier
9 AM start (540). -/
theorem C5_counterexample :
    findNextOpenTime (some ["Sunday: 5:00 PM – 6:00 PM, 9:00 AM – 10:00 AM"])
        ⟨0, 0, 0⟩ = some ("today at " ++ formatMinutesAsTime 1020) ∧
    getTodayHours (some ["Sunday: 5:00 PM – 6:00 PM, 9:00 AM – 10:00 AM"])
        ⟨0, 0, 0⟩ =
      some ⟨"Sunday", "5:00 PM – 6:00 PM, 9:00 AM – 10:00 AM",
            some [⟨1020, 1080, false⟩, ⟨540, 600, false⟩]⟩ ∧
    (0 < 540 ∧ 540 < 1020) ∧
    findNextOpenTime (some ["Sunday: 5:00 PM – 6:00 PM, 9:00 AM – 10:00 AM"])
        ⟨0, 0, 0⟩ ≠ some ("today at " ++ formatMinutesAsTime 540) := by decide

/-- Claim C5 (amended):  The first range of today (in textual order, not necessarily the
earliest) whose start is after the current minute yields
`"today at <DisplayTime(start)>"`; otherwise the first of the offset days
1..7 with any ranges yields `"<tomorrow|weekday> at <DisplayTime(first
range start)>"`; and with no later range today and no ranges on any of the
next seven days the result is `null`. -/
theorem C5_next_open (hs : List String) (d : JsDate) :
    (∀ td pre r post, getTodayHours (some hs) d = some td →
      td.ranges = some (pre ++ r :: post) →
      (∀ r' ∈ pre, r'.start ≤ d.hour * 60 + d.minute) →
      d.hour * 60 + d.minute < r.start →
      findNextOpenTime (some hs) d =
        some ("today at " ++ formatMinutesAsTime r.start)) ∧
    (∀ i r rest, 1 ≤ i → i ≤ 7 →
      noLaterOpeningToday (some hs) d →
      scheduleRanges (some hs) (d.day + i) = r :: rest →
      (∀ j, 1 ≤ j → j < i → scheduleRanges (some hs) (d.day + j) = []) →
      findNextOpenTime (some hs) d =
        some ((if i = 1 then "tomorrow" else dayNameOf (d.day + i)) ++
              " at " ++ formatMinutesAsTime r.start)) ∧
    ((hs = [] ∨ (noLaterOpeningToday (some hs) d ∧
        ∀ i, 1 ≤ i → i ≤ 7 → scheduleRanges (some hs) (d.day + i) = [])) →
      findNextOpenTime (some hs) d = none) := by
  refine ⟨?_, ?_, ?_⟩
  · intro td pre r post hth htr hpre hr
    have hne : hs ≠ [] := by
      rintro rfl
      have hnil : getTodayHours (some ([] : List String)) d = none := rfl
      rw [hnil] at hth
      cases hth
    have hlen : ¬ (hs.length = 0) := fun hcon => hne (List.eq_nil_of_length_eq_zero hcon)
    have hfind : (pre ++ r :: post).find?
        (fun r => decide (d.hour * 60 + d.minute < r.start)) = some r := by
      refine find?_first _ pre r post ?_ (by simp [hr])
      intro a ha
      simp only [decide_eq_false_iff_not, not_lt]
      exact hpre a ha
    simp only [findNextOpenTime, hlen, if_false, hth, htr, hfind]
  · intro i r rest hi1 hi7 hnl hsr hprev
    have hne : hs ≠ [] := by
      rintro rfl
      have hnil : scheduleRanges (some ([] : List String)) (d.day + i) = [] := rfl
      rw [hnil] at hsr
      cases hsr
    have hlen : ¬ (hs.length = 0) := fun hcon => hne (List.eq_nil_of_length_eq_zero hcon)
    have hloop : findNextOpenLoop (some hs) d [1, 2, 3, 4, 5, 6, 7] =
        some ((if i = 1 then "tomorrow" else dayNameOf (d.day + i)) ++
              " at " ++ formatMinutesAsTime r.start) := by
      interval_cases i
      · exact findNextOpenLoop_hit (some hs) d 1 _ r rest hsr
      · rw [findNextOpenLoop_skip _ _ 1 _ (hprev 1 (by norm_num) (by norm_num))]
        exact findNextOpenLoop_hit (some hs) d 2 _ r rest hsr
      · rw [findNextOpenLoop_skip _ _ 1 _ (hprev 1 (by norm_num) (by norm_num)),
          findNextOpenLoop_skip _ _ 2 _ (hprev 2 (by norm_num) (by norm_num))]
        exact findNextOpenLoop_hit (some hs) d 3 _ r rest hsr
      · rw [findNextOpenLoop_skip _ _ 1 _ (hprev 1 (by norm_num) (by norm_num)),
          findNextOpenLoop_skip _ _ 2 _ (hprev 2 (by norm_num) (by norm_num)),
          findNextOpenLoop_skip _ _ 3 _ (hprev 3 (by norm_num) (by norm_num))]
        exact findNextOpenLoop_hit (some hs) d 4 _ r rest hsr
      · rw [findNextOpenLoop_skip _ _ 1 _ (hprev 1 (by norm_num) (by norm_num)),
          findNextOpenLoop_skip _ _ 2 _ (hprev 2 (by norm_num) (by norm_num)),
          findNextOpenLoop_skip _ _ 3 _ (hprev 3 (by norm_num) (by norm_num)),
          findNextOpenLoop_skip _ _ 4 _ (hprev 4 (by norm_num) (by norm_num))]
        exact findNextOpenLoop_hit (some hs) d 5 _ r rest hsr
      · rw [findNextOpenLoop_skip _ _ 1 _ (hprev 1 (by norm_num) (by norm_num)),
          findNextOpenLoop_skip _ _ 2 _ (hprev 2 (by norm_num) (by norm_num)),
          findNextOpenLoop_skip _ _ 3 _ (hprev 3 (by norm_num) (by norm_num)),
          findNextOpenLoop_skip _ _ 4 _ (hprev 4 (by norm_num) (by norm_num)),
          findNextOpenLoop_skip _ _ 5 _ (hprev 5 (by norm_num) (by norm_num))]
        exact findNextOpenLoop_hit (some hs) d 6 _ r rest hsr
      · rw [findNextOpenLoop_skip _ _ 1 _ (hprev 1 (by norm_num) (by norm_num)),
          findNextOpenLoop_skip _ _ 2 _ (hprev 2 (by norm_num) (by norm_num)),
          findNextOpenLoop_skip _ _ 3 _ (hprev 3 (by norm_num) (by norm_num)),
          findNextOpenLoop_skip _ _ 4 _ (hprev 4 (by norm_num) (by norm_num)),
          findNextOpenLoop_skip _ _ 5 _ (hprev 5 (by norm_num) (by norm_num)),
          findNextOpenLoop_skip _ _ 6 _ (hprev 6 (by norm_num) (by norm_num))]
        exact findNextOpenLoop_hit (some hs) d 7 _ r rest hsr
    cases hth : getTodayHours (some hs) d with
    | none => simp only [findNextOpenTime, hlen, if_false, hth, hloop]
    | some td =>
      cases htr : td.ranges with
      | none => simp only [findNextOpenTime, hlen, if_false, hth, htr, hloop]
      | some rs =>
        have hfind : rs.find?
            (fun r => decide (d.hour * 60 + d.minute < r.start)) = none := by
          rw [List.find?_eq_none]
          intro a ha
          simp only [decide_eq_true_eq, not_lt]
          exact hnl td rs hth htr a ha
        simp only [findNextOpenTime, hlen, if_false, hth, htr, hfind, hloop]
  · rintro (rfl | ⟨hnl, hall⟩)
    · rfl
    · by_cases hnil : hs = []
      · subst hnil; rfl
      · have hlen : ¬ (hs.length = 0) :=
          fun hcon => hnil (List.eq_nil_of_length_eq_zero hcon)
        have hloop : findNextOpenLoop (some hs) d [1, 2, 3, 4, 5, 6, 7] = none := by
          refine findNextOpenLoop_none (some hs) d _ ?_
          intro j hj
          fin_cases hj <;> exact hall _ (by norm_num) (by norm_num)
        cases hth : getTodayHours (some hs) d with
        | none => simp only [findNextOpenTime, hlen, if_false, hth, hloop]
        | some td =>
          cases htr : td.ranges with
          | none => simp only [findNextOpenTime, hlen, if_false, hth, htr, hloop]
          | some rs =>
            have hfind : rs.find?
                (fun r => decide (d.hour * 60 + d.minute < r.start)) = none := by
              rw [List.find?_eq_none]
              intro a ha
              simp only [decide_eq_true_eq, not_lt]
              exact hnl td rs hth htr a ha
            simp only [findNextOpenTime, hlen, if_false, hth, htr, hfind, hloop]

/-- Claim C5 witness: a Sunday-morning reference over a Monday-only schedule has
no later opening today (no Sunday entry), so the scan returns
"tomorrow at 9:00 AM" from offset day 1. -/
theorem C5_witness :
    findNextOpenTime (some ["Monday: 9:00 AM – 5:00 PM"]) ⟨0, 10, 0⟩ =
      some "tomorrow at 9:00 AM" := by
  have h := (C5_next_open ["Monday: 9:00 AM – 5:00 PM"] ⟨0, 10, 0⟩).2.1
    1 ⟨540, 1020, false⟩ [] (by norm_num) (by norm_num)
    (by
      intro td rs htd
      have : getTodayHours (some ["Monday: 9:00 AM – 5:00 PM"]) ⟨0, 10, 0⟩ = none := by
        decide
      rw [this] at htd
      cases htd)
    (by decide)
    (by intro j hj1 hj2; omega)
  simpa using h

end Shared
